import Mathlib

/-!
Verification of the pluto-sdr-usb-gadget streaming bridge.

This file gives a shallow embedding of the parts of `ring_buffer.c`,
`thread_read.c`, `thread_write.c` and `main.c` that the checked properties
talk about, and proves or refutes each property over that embedding.

Machine integers are modelled as `Nat` (for unsigned values, with explicit
`% 2 ^ 32` / `% 2 ^ 64` where the C type could wrap) and `Int` (for signed
values such as `ssize_t` results and AIO `res` fields).  External effects
(`io_submit`, `iio_buffer_refill`, eventfd reads, `pthread_create`, ...)
are passed in as explicit inputs; traces of side effects are recorded as
lists of abstract actions.
-/

/-! ## `ring_buffer.c` : bounded FIFO of indices -/

/-- `RING_BUFFER_NO_INDEX` is `UINT32_MAX` (ring_buffer.h line 9). -/
def RING_BUFFER_NO_INDEX : Nat := 2 ^ 32 - 1

/-- `RING_BUFFER_Ctx_t` (ring_buffer.h): capacity / usage and head / tail
indexes, all `uint32_t`. -/
structure RING_BUFFER_Ctx where
  capacity : Nat
  usage : Nat
  head : Nat
  tail : Nat
deriving Repr, DecidableEq

/-- `RING_BUFFER_Init` (ring_buffer.c lines 8-15): zero the context and
store the capacity. -/
def RING_BUFFER_Init (capacity : Nat) : RING_BUFFER_Ctx :=
  { capacity := capacity, usage := 0, head := 0, tail := 0 }

/-- `RING_BUFFER_Put` (ring_buffer.c lines 17-35): if there is space,
return the head slot index, increment-and-wrap the head and increment the
usage; otherwise return `RING_BUFFER_NO_INDEX`.  The `uint32_t` increments
carry an explicit `% 2 ^ 32`. -/
def RING_BUFFER_Put (ctx : RING_BUFFER_Ctx) : RING_BUFFER_Ctx × Nat :=
  if ctx.usage < ctx.capacity then
    let head1 := (ctx.head + 1) % 2 ^ 32
    ({ ctx with
        head := if head1 = ctx.capacity then 0 else head1,
        usage := (ctx.usage + 1) % 2 ^ 32 },
      ctx.head)
  else
    (ctx, RING_BUFFER_NO_INDEX)

/-- `RING_BUFFER_Get` (ring_buffer.c lines 37-55): if there are items,
return the tail slot index, increment-and-wrap the tail and decrement the
usage; otherwise return `RING_BUFFER_NO_INDEX`. -/
def RING_BUFFER_Get (ctx : RING_BUFFER_Ctx) : RING_BUFFER_Ctx × Nat :=
  if ctx.usage > 0 then
    let tail1 := (ctx.tail + 1) % 2 ^ 32
    ({ ctx with
        tail := if tail1 = ctx.capacity then 0 else tail1,
        usage := ctx.usage - 1 },
      ctx.tail)
  else
    (ctx, RING_BUFFER_NO_INDEX)

/-! ## Shared system constants -/

/-- Linux `ESHUTDOWN` errno (used as `-ESHUTDOWN` in AIO completion results). -/
def ESHUTDOWN : Int := 108

/-- The C cast `(size_t)x` of a signed 64-bit value: reduce modulo `2 ^ 64`
and read off the non-negative representative. -/
def castSizeT (x : Int) : Nat := (x % (2 : Int) ^ 64).toNat

namespace ThreadRead

/-- `NUM_BUFS` (thread_read.c line 43). -/
def NUM_BUFS : Nat := 16

/-- Configuration fixed for one RX engine run: the computed USB buffer size
in bytes (thread_read.c line 223) and whether the build has the
`GENERATE_STATS` compile-time flag set (thread_read.c lines 33-35). -/
structure RxConfig where
  usb_buffer_size : Nat
  generate_stats : Bool

/-- The RX engine state visible to the epoll handlers (`state_t` in
thread_read.c), with transfer buffers named by their pool index
`0 .. NUM_BUFS - 1`:
* `ring_buf_ctx` / `ring_buf_data` are the free-list ring and its backing
  array of buffer pointers (modelled as buffer indices);
* `in_use` is each buffer's `in_use` flag;
* `inFlight` records which buffers currently have a pending async USB
  write submitted to the kernel (the completion queue's view, needed to
  state the pool invariant);
* `overflows` is the stats overflow counter. -/
structure RxState where
  keep_running : Bool
  ring_buf_ctx : RING_BUFFER_Ctx
  ring_buf_data : Nat → Nat
  in_use : Nat → Bool
  inFlight : List Nat
  overflows : Nat

/-- The pool-population loop (thread_read.c lines 271-289): starting from
`RING_BUFFER_Init NUM_BUFS` and a zeroed array, push buffer `i` into ring
slot `RING_BUFFER_Put(...)` for each `i < n`. -/
def rxPopulate : Nat → RING_BUFFER_Ctx × (Nat → Nat)
  | 0 => (RING_BUFFER_Init NUM_BUFS, fun _ => 0)
  | n + 1 =>
    let (ctx, data) := rxPopulate n
    let (ctx2, idx) := RING_BUFFER_Put ctx
    (ctx2, Function.update data idx n)

/-- RX engine state at entry to the RUNNING loop (thread_read.c line 339):
pool populated, nothing in flight, no overflows. -/
def rxInitState : RxState :=
  { keep_running := true
    ring_buf_ctx := (rxPopulate NUM_BUFS).1
    ring_buf_data := (rxPopulate NUM_BUFS).2
    in_use := fun _ => false
    inFlight := []
    overflows := 0 }

/-- `handle_eventfd_thread` (thread_read.c lines 377-384): clear
`keep_running`, return 0. -/
def handle_eventfd_thread (s : RxState) : RxState × Int :=
  ({ s with keep_running := false }, 0)

/-- Processing of one AIO completion event inside the loop of
`handle_eventfd_aio` (thread_read.c lines 408-431): log an error when the
byte count mismatches and the result is not `-ESHUTDOWN`; mark the buffer
unused; return its pool slot to the ring buffer.  Returns the new state
and whether the error path logged. -/
def handle_event (cfg : RxConfig) (s : RxState) (bufId : Nat) (res : Int) :
    RxState × Bool :=
  let logged : Bool :=
    if cfg.usb_buffer_size ≠ castSizeT res then
      if res ≠ -ESHUTDOWN then true else false
    else false
  let s1 : RxState := { s with in_use := Function.update s.in_use bufId false }
  let put := RING_BUFFER_Put s1.ring_buf_ctx
  ({ s1 with
      ring_buf_ctx := put.1
      ring_buf_data := Function.update s1.ring_buf_data put.2 bufId
      inFlight := s1.inFlight.erase bufId },
    logged)

/-- `handle_eventfd_aio` (thread_read.c lines 386-434): drain the eventfd,
poll the completed events and process each in order.  The events are given
as (buffer index, `res`) pairs; the success path always returns 0. -/
def handle_eventfd_aio (cfg : RxConfig) : RxState → List (Nat × Int) → RxState
  | s, [] => s
  | s, e :: rest => handle_eventfd_aio cfg (handle_event cfg s e.1 e.2).1 rest

/-- `handle_iio_buffer` (thread_read.c lines 436-495): refill the hardware
buffer (`refill_bytes` is the external refill result; a short read is a
fatal `-1`); pull a free slot; if none, count an overflow; otherwise mark
the buffer in use and submit it (`submit_ok` is the external `io_submit`
outcome; failure clears the in-use flag and returns `-1`). -/
def handle_iio_buffer (cfg : RxConfig) (s : RxState) (refill_bytes : Int)
    (submit_ok : Bool) : RxState × Int :=
  if refill_bytes ≠ (cfg.usb_buffer_size : Int) then
    (s, -1)
  else
    let got := RING_BUFFER_Get s.ring_buf_ctx
    if got.2 ≠ RING_BUFFER_NO_INDEX then
      let b := s.ring_buf_data got.2
      let s1 : RxState :=
        { s with ring_buf_ctx := got.1, in_use := Function.update s.in_use b true }
      if submit_ok then
        ({ s1 with inFlight := s1.inFlight ++ [b] }, 0)
      else
        ({ s1 with in_use := Function.update s1.in_use b false }, -1)
    else
      ({ s with ring_buf_ctx := got.1
                overflows :=
                  if cfg.generate_stats then (s.overflows + 1) % 2 ^ 32
                  else s.overflows },
        0)

/-- A readiness event dispatched by one iteration of the RUNNING epoll
loop, with the external inputs each handler consumes. -/
inductive RxEvent where
  | quitReady
  | iioReady (refill_bytes : Int) (submit_ok : Bool)
  | aioReady (events : List (Nat × Int))

/-- One dispatch of the RUNNING loop (thread_read.c lines 340-347): run
the handler registered for the ready descriptor, returning the new state
and the handler's return code. -/
def dispatch (cfg : RxConfig) (s : RxState) : RxEvent → RxState × Int
  | RxEvent.quitReady => handle_eventfd_thread s
  | RxEvent.iioReady rb ok => handle_iio_buffer cfg s rb ok
  | RxEvent.aioReady evs => (handle_eventfd_aio cfg s evs, 0)

/-- Kernel-side validity of a completion batch: each event names a buffer
with a pending transfer, and no pending transfer completes twice. -/
def validEvents : List Nat → List (Nat × Int) → Bool
  | _, [] => true
  | fl, e :: rest => decide (e.1 ∈ fl) && validEvents (fl.erase e.1) rest

/-- Environment validity of a dispatched event. -/
def eventValid (s : RxState) : RxEvent → Bool
  | RxEvent.aioReady evs => validEvents s.inFlight evs
  | _ => true

/-- The contents of the free-list, oldest first: the ring slots
`tail, tail+1, ...` (mod capacity) up to `usage`, read through
`ring_buf_data`. -/
def freeListC (ctx : RING_BUFFER_Ctx) (data : Nat → Nat) : List Nat :=
  (List.range ctx.usage).map (fun i => data ((ctx.tail + i) % NUM_BUFS))

/-- Free-list contents of an RX engine state. -/
def freeList (s : RxState) : List Nat :=
  freeListC s.ring_buf_ctx s.ring_buf_data

/-- Well-formedness of the pool's ring context: capacity 16, tail in
range, usage bounded, head positioned `usage` slots past tail. -/
def ringWF (ctx : RING_BUFFER_Ctx) : Prop :=
  ctx.capacity = NUM_BUFS ∧ ctx.tail < NUM_BUFS ∧ ctx.usage ≤ NUM_BUFS ∧
    ctx.head = (ctx.tail + ctx.usage) % NUM_BUFS

instance (ctx : RING_BUFFER_Ctx) : Decidable (ringWF ctx) := by
  unfold ringWF; infer_instance

/-- RX buffer-pool invariant: the ring is well-formed and the free-list
contents together with the in-flight set are a permutation of the 16
buffer indices. -/
def rxInv (s : RxState) : Prop :=
  ringWF s.ring_buf_ctx ∧
    (freeList s ++ s.inFlight).Perm (List.range NUM_BUFS)

instance (s : RxState) : Decidable (rxInv s) := by
  unfold rxInv; infer_instance

end ThreadRead

namespace ThreadWrite

/-- `NUM_BUFS` (thread_write.c line 42). -/
def NUM_BUFS : Nat := 16

/-- Configuration fixed for one TX engine run (thread_write.c lines 32-34
and 203). -/
structure TxConfig where
  usb_buffer_size : Nat
  generate_stats : Bool

/-- The TX engine state (`state_t` in thread_write.c), buffers named by
pool index.  TX has no free-list; `inFlight` records which buffers have a
pending async USB read submitted to the kernel. -/
structure TxState where
  keep_running : Bool
  in_use : Nat → Bool
  inFlight : List Nat
  overflows : Nat

/-- TX engine state at entry to the RUNNING loop: all 16 buffers marked
in-use (thread_write.c line 266) and submitted as async reads up front
(lines 318-324). -/
def txInitState : TxState :=
  { keep_running := true
    in_use := fun _ => true
    inFlight := List.range NUM_BUFS
    overflows := 0 }

/-- One AIO completion of `handle_eventfd_aio` (thread_write.c lines
397-453).  `res` is the completed read's result, `push_bytes` the result
of the blocking `iio_buffer_push` (consumed only on the success branch),
`submit_ok` the outcome of the re-submission `io_submit`.  Returns the
new state, whether the error branch logged, and the handler return code. -/
structure TxCompletion where
  bufId : Nat
  res : Int
  push_bytes : Int
  submit_ok : Bool

def handle_event (cfg : TxConfig) (s : TxState) (e : TxCompletion) :
    TxState × Bool × Int :=
  let step :=
    if castSizeT e.res = cfg.usb_buffer_size then
      (if e.push_bytes ≠ (cfg.usb_buffer_size : Int) then
        ({ s with overflows :=
            if cfg.generate_stats then (s.overflows + 1) % 2 ^ 32
            else s.overflows }, false)
      else (s, false))
    else if e.res ≠ -ESHUTDOWN then (s, true)
    else (s, false)
  if e.submit_ok then
    (step.1, step.2, 0)
  else
    ({ step.1 with
        in_use := Function.update step.1.in_use e.bufId false
        inFlight := step.1.inFlight.erase e.bufId },
      step.2, -1)

/-- `handle_eventfd_aio`'s per-event loop (thread_write.c lines 397-453):
process completions in order, stopping with `-1` if a re-submission
fails. -/
def handle_eventfd_aio (cfg : TxConfig) : TxState → List TxCompletion → TxState × Int
  | s, [] => (s, 0)
  | s, e :: rest =>
    let r := handle_event cfg s e
    if r.2.2 = 0 then handle_eventfd_aio cfg r.1 rest else (r.1, r.2.2)

/-- A readiness event dispatched by one iteration of the TX RUNNING loop. -/
inductive TxEvent where
  | quitReady
  | aioReady (events : List TxCompletion)

/-- One dispatch of the TX RUNNING loop (thread_write.c lines 329-336). -/
def dispatch (cfg : TxConfig) (s : TxState) : TxEvent → TxState × Int
  | TxEvent.quitReady => ({ s with keep_running := false }, 0)
  | TxEvent.aioReady evs => handle_eventfd_aio cfg s evs

/-- TX pool invariant: the in-flight set is a permutation of the 16
buffer indices (count exactly 16, no buffer idle). -/
def txInv (s : TxState) : Prop :=
  s.inFlight.Perm (List.range NUM_BUFS)

instance (s : TxState) : Decidable (txInv s) := by
  unfold txInv; infer_instance

end ThreadWrite

/-! ## Shutdown sequences (claim C3) -/

/-- Teardown effects of an engine thread after leaving its RUNNING loop. -/
inductive TeardownAction where
  | ioDestroy
  | freeBuffer (i : Nat)
  | closeStatsTimer
  | closeAioEventfd
  | iioBufferDestroy
  | iioContextDestroy
  | closeEpoll
deriving DecidableEq, Repr

/-- The RX engine's teardown effects in program order (thread_read.c lines
350-368): `io_destroy`, then `free` of each of the 16 pool buffers, then
the stats timer close (only in stats builds), the AIO eventfd close, the
IIO stream buffer destroy, the IIO context destroy and the epoll close. -/
def rxTeardownTrace (stats : Bool) : List TeardownAction :=
  TeardownAction.ioDestroy ::
    ((List.range ThreadRead.NUM_BUFS).map TeardownAction.freeBuffer ++
      (if stats then [TeardownAction.closeStatsTimer] else []) ++
      [TeardownAction.closeAioEventfd, TeardownAction.iioBufferDestroy,
        TeardownAction.iioContextDestroy, TeardownAction.closeEpoll])

/-- The TX engine's teardown effects in program order (thread_write.c
lines 339-357), same shape as RX. -/
def txTeardownTrace (stats : Bool) : List TeardownAction :=
  TeardownAction.ioDestroy ::
    ((List.range ThreadWrite.NUM_BUFS).map TeardownAction.freeBuffer ++
      (if stats then [TeardownAction.closeStatsTimer] else []) ++
      [TeardownAction.closeAioEventfd, TeardownAction.iioBufferDestroy,
        TeardownAction.iioContextDestroy, TeardownAction.closeEpoll])

/-! ## `main.c` : control plane / session manager -/

namespace MainC

/-- One direction's engine-start parameters (`THREAD_READ_Args_t` /
`THREAD_WRITE_Args_t` payload fields, and the body of a `START` command,
`cmdStartRequest_t`: 32-bit channel mask and 32-bit buffer size). -/
structure EngineArgs where
  iio_channels : Nat
  iio_buffer_size : Nat
deriving DecidableEq, Repr

/-- Control-plane state (`state_t` in main.c) restricted to what the
engine-lifecycle commands touch.  `read_engine` / `write_engine` record
the parameters the running engine thread for that direction was created
with (`none` when no thread of that direction is alive). -/
structure SessionState where
  read_started : Bool
  write_started : Bool
  read_args : EngineArgs
  write_args : EngineArgs
  config_enabled : Bool
  read_engine : Option EngineArgs
  write_engine : Option EngineArgs
deriving DecidableEq

/-- Side effects of the lifecycle functions, in program order. -/
inductive Action where
  | signalQuit (tx : Bool)
  | joinThread (tx : Bool)
  | drainQuit (tx : Bool)
  | maskSignals
  | unmaskSignals
  | createThread (tx : Bool) (args : EngineArgs)
  | logBadStart
deriving DecidableEq, Repr

/-- Success/failure of the system calls the lifecycle functions make. -/
structure SysEnv where
  eventfd_write_ok : Bool
  eventfd_read_ok : Bool
  sigmask_ok : Bool
  create_ok : Bool

/-- Environment in which every system call succeeds. -/
def allOk : SysEnv := ⟨true, true, true, true⟩

/-- `stop_thread` (main.c lines 444-494): if the direction's engine is
running, write its quit eventfd, join the thread, drain the eventfd and
clear the running flag; otherwise do nothing.  Returns the new state, the
effect trace and the `bool` result. -/
def stop_thread (env : SysEnv) (s : SessionState) (tx : Bool) :
    SessionState × List Action × Bool :=
  if tx && s.write_started then
    if !env.eventfd_write_ok then (s, [], false)
    else
      let s1 : SessionState := { s with write_engine := none }
      if !env.eventfd_read_ok then
        (s1, [Action.signalQuit true, Action.joinThread true], false)
      else
        ({ s1 with write_started := false },
          [Action.signalQuit true, Action.joinThread true, Action.drainQuit true],
          true)
  else if !tx && s.read_started then
    if !env.eventfd_write_ok then (s, [], false)
    else
      let s1 : SessionState := { s with read_engine := none }
      if !env.eventfd_read_ok then
        (s1, [Action.signalQuit false, Action.joinThread false], false)
      else
        ({ s1 with read_started := false },
          [Action.signalQuit false, Action.joinThread false, Action.drainQuit false],
          true)
  else
    (s, [], true)

/-- `start_thread` (main.c lines 401-442): mask all signals, create the
direction's thread if it is not already running (recording the parameter
block it is created over), restore the signal mask. -/
def start_thread (env : SysEnv) (s : SessionState) (tx : Bool) :
    SessionState × List Action × Bool :=
  if !env.sigmask_ok then (s, [], false)
  else
    let created :=
      if tx && !s.write_started then
        ({ s with write_started := env.create_ok
                  write_engine := if env.create_ok then some s.write_args else none },
          [Action.createThread true s.write_args], env.create_ok)
      else if !tx && !s.read_started then
        ({ s with read_started := env.create_ok
                  read_engine := if env.create_ok then some s.read_args else none },
          [Action.createThread false s.read_args], env.create_ok)
      else
        (s, [], true)
    if !created.2.2 then
      (created.1, Action.maskSignals :: created.2.1, false)
    else if !env.sigmask_ok then
      (created.1, Action.maskSignals :: created.2.1, false)
    else
      (created.1, Action.maskSignals :: created.2.1 ++ [Action.unmaskSignals], true)

/-- The `SDR_USB_GADGET_COMMAND_START` case of `handle_ep0` (main.c lines
315-347): reject a request body whose size differs from the 8-byte
`cmdStartRequest_t`; otherwise select the direction from `wValue`
(`0x01` = TX), stop any running engine for it, store the new parameters
and start the engine thread. -/
def handle_setup_start (env : SysEnv) (s : SessionState) (wValue : Nat)
    (read_count : Int) (req : EngineArgs) : SessionState × List Action :=
  if read_count ≠ 8 then (s, [Action.logBadStart])
  else
    let tx : Bool := wValue == 1
    let stopped := stop_thread env s tx
    let s2 : SessionState :=
      if tx then { stopped.1 with write_args := req }
      else { stopped.1 with read_args := req }
    let started := start_thread env s2 tx
    (started.1, stopped.2.1 ++ started.2.1)

/-- The `SDR_USB_GADGET_COMMAND_STOP` case of `handle_ep0` (main.c lines
348-356): select the direction from `wValue` (non-zero = TX) and stop the
engine. -/
def handle_setup_stop (env : SysEnv) (s : SessionState) (wValue : Nat) :
    SessionState × List Action :=
  let tx : Bool := wValue != 0
  let stopped := stop_thread env s tx
  (stopped.1, stopped.2.1)

/-- A session state with neither engine running, used as a concrete
witness input. -/
def freshSession : SessionState :=
  { read_started := false
    write_started := false
    read_args := ⟨0, 0⟩
    write_args := ⟨0, 0⟩
    config_enabled := true
    read_engine := none
    write_engine := none }

end MainC

/-! ## Concrete witness states for the RX engine -/

namespace ThreadRead

/-- A RUNNING-state RX configuration used as a concrete witness input
(channel mask 0x3 at 4 bytes/sample and 1024 samples gives 4096-byte
buffers), in a stats build. -/
def cfgW : RxConfig := { usb_buffer_size := 4096, generate_stats := true }

/-- An RX state whose free-list is empty: every buffer is in flight. -/
def rxAllInFlightState : RxState :=
  { keep_running := true
    ring_buf_ctx := RING_BUFFER_Init NUM_BUFS
    ring_buf_data := fun _ => 0
    in_use := fun _ => true
    inFlight := List.range NUM_BUFS
    overflows := 0 }

end ThreadRead

/-- States of the ring buffer reachable from `RING_BUFFER_Init capacity`
by any sequence of `Put` / `Get` operations. -/
inductive RING_BUFFER_Reachable (capacity : Nat) : RING_BUFFER_Ctx → Prop
  | init : RING_BUFFER_Reachable capacity (RING_BUFFER_Init capacity)
  | put {ctx : RING_BUFFER_Ctx} :
      RING_BUFFER_Reachable capacity ctx →
      RING_BUFFER_Reachable capacity (RING_BUFFER_Put ctx).1
  | get {ctx : RING_BUFFER_Ctx} :
      RING_BUFFER_Reachable capacity ctx →
      RING_BUFFER_Reachable capacity (RING_BUFFER_Get ctx).1

/-- **C8.** The free-list fails closed: in every state reachable from
`init(capacity)` by put/get operations, `get` on an empty list
(`usage = 0`) returns the `NONE` sentinel and `put` on a full list
(`usage = capacity`) returns the `NONE` sentinel; no index is produced. -/
theorem C8_ring_buffer_fails_closed (capacity : Nat) (ctx : RING_BUFFER_Ctx)
    (hreach : RING_BUFFER_Reachable capacity ctx) :
    (ctx.usage = 0 → (RING_BUFFER_Get ctx).2 = RING_BUFFER_NO_INDEX) ∧
    (ctx.usage = ctx.capacity → (RING_BUFFER_Put ctx).2 = RING_BUFFER_NO_INDEX) := by
  constructor
  · intro h0
    simp [RING_BUFFER_Get, h0]
  · intro hfull
    simp [RING_BUFFER_Put, hfull]

/-- Witness for C8: from `init(1)`, the empty state rejects `get` and the
state after one `put` (usage = capacity = 1) rejects `put`. -/
theorem C8_ring_buffer_fails_closed_witness :
    (RING_BUFFER_Get (RING_BUFFER_Init 1)).2 = RING_BUFFER_NO_INDEX ∧
    (RING_BUFFER_Put (RING_BUFFER_Put (RING_BUFFER_Init 1)).1).2 = RING_BUFFER_NO_INDEX := by
  refine ⟨?_, ?_⟩
  · exact (C8_ring_buffer_fails_closed 1 _ RING_BUFFER_Reachable.init).1 (by decide)
  · exact (C8_ring_buffer_fails_closed 1 _
      (RING_BUFFER_Reachable.put RING_BUFFER_Reachable.init)).2 (by decide)

/-! ## RX pool invariant lemmas -/

namespace ThreadRead

/-- Two distinct ring positions within a window of fewer than 16 slots map
to distinct array indices. -/
theorem slot_ne {t i u : Nat} (hi : i < u) (hu : u < 16) :
    (t + i) % 16 ≠ (t + u) % 16 := by
  intro h
  have h1 : i % 16 = u % 16 := Nat.ModEq.add_left_cancel' t h
  rw [Nat.mod_eq_of_lt (hi.trans hu), Nat.mod_eq_of_lt hu] at h1
  omega

/-- Effect of a successful `RING_BUFFER_Put` followed by the store of
buffer `b` at the returned slot: the slot is `head` (in bounds), the ring
stays well-formed and the free-list contents gain `b` at the end. -/
theorem put_spec (ctx : RING_BUFFER_Ctx) (data : Nat → Nat) (b : Nat)
    (hwf : ringWF ctx) (hu : ctx.usage < NUM_BUFS) :
    (RING_BUFFER_Put ctx).2 = ctx.head ∧
    (RING_BUFFER_Put ctx).2 < NUM_BUFS ∧
    ringWF (RING_BUFFER_Put ctx).1 ∧
    freeListC (RING_BUFFER_Put ctx).1
        (Function.update data (RING_BUFFER_Put ctx).2 b)
      = freeListC ctx data ++ [b] := by
  obtain ⟨hcap, htail, husage, hhead⟩ := hwf
  simp only [NUM_BUFS] at hu htail husage hhead ⊢
  have hlt : ctx.usage < ctx.capacity := by rw [hcap]; exact hu
  have hheadlt : ctx.head < 16 := by rw [hhead]; exact Nat.mod_lt _ (by norm_num)
  have hput : RING_BUFFER_Put ctx =
      ({ ctx with
          head := if (ctx.head + 1) % 2 ^ 32 = ctx.capacity then 0
                  else (ctx.head + 1) % 2 ^ 32,
          usage := (ctx.usage + 1) % 2 ^ 32 }, ctx.head) := by
    simp [RING_BUFFER_Put, hlt]
  have hmod1 : (ctx.head + 1) % 2 ^ 32 = ctx.head + 1 :=
    Nat.mod_eq_of_lt (by omega)
  have hmod2 : (ctx.usage + 1) % 2 ^ 32 = ctx.usage + 1 :=
    Nat.mod_eq_of_lt (by omega)
  refine ⟨by rw [hput], by rw [hput]; exact hheadlt, ?_, ?_⟩
  · refine ⟨by rw [hput]; exact hcap, by rw [hput]; exact htail, ?_, ?_⟩
    · rw [hput]; simp only [NUM_BUFS]; rw [hmod2]; omega
    · rw [hput]; simp only [NUM_BUFS]
      rw [hmod1, hmod2, hcap]
      simp only [NUM_BUFS]
      split <;> omega
  · rw [hput]
    simp only [freeListC, NUM_BUFS, hmod2]
    rw [List.range_succ, List.map_append]
    congr 1
    · apply List.map_congr_left
      intro i hi
      rw [List.mem_range] at hi
      exact Function.update_noteq (by rw [hhead]; exact slot_ne hi hu) _ _
    · simp only [List.map_cons, List.map_nil]
      congr 1
      rw [← hhead]
      exact Function.update_same _ _ _

/-- Effect of a successful `RING_BUFFER_Get`: the returned slot is `tail`
(in bounds), the ring stays well-formed and the old free-list contents are
the buffer at `tail` followed by the new contents. -/
theorem get_spec (ctx : RING_BUFFER_Ctx) (data : Nat → Nat)
    (hwf : ringWF ctx) (hu : 0 < ctx.usage) :
    (RING_BUFFER_Get ctx).2 = ctx.tail ∧
    ctx.tail < NUM_BUFS ∧
    ringWF (RING_BUFFER_Get ctx).1 ∧
    freeListC ctx data = data ctx.tail :: freeListC (RING_BUFFER_Get ctx).1 data := by
  obtain ⟨hcap, htail, husage, hhead⟩ := hwf
  simp only [NUM_BUFS] at htail husage hhead ⊢
  have hget : RING_BUFFER_Get ctx =
      ({ ctx with
          tail := if (ctx.tail + 1) % 2 ^ 32 = ctx.capacity then 0
                  else (ctx.tail + 1) % 2 ^ 32,
          usage := ctx.usage - 1 }, ctx.tail) := by
    simp [RING_BUFFER_Get, hu]
  have hmod1 : (ctx.tail + 1) % 2 ^ 32 = ctx.tail + 1 :=
    Nat.mod_eq_of_lt (by omega)
  have htail' : (if (ctx.tail + 1) % 2 ^ 32 = ctx.capacity then 0
      else (ctx.tail + 1) % 2 ^ 32) = (ctx.tail + 1) % 16 := by
    rw [hmod1, hcap]
    simp only [NUM_BUFS]
    split <;> omega
  refine ⟨by rw [hget], htail, ?_, ?_⟩
  · refine ⟨by rw [hget]; exact hcap, ?_, ?_, ?_⟩
    · rw [hget]; simp only [NUM_BUFS]; rw [htail']
      exact Nat.mod_lt _ (by norm_num)
    · rw [hget]; simp only [NUM_BUFS]; omega
    · rw [hget]; simp only [NUM_BUFS]; rw [htail', hhead]
      have h1 : ((ctx.tail + 1) % 16 + (ctx.usage - 1)) % 16
          = (ctx.tail + 1 + (ctx.usage - 1)) % 16 := Nat.mod_add_mod _ _ _
      rw [h1]
      congr 1
      omega
  · rw [hget]
    simp only [freeListC, NUM_BUFS]
    obtain ⟨u, hu'⟩ : ∃ u, ctx.usage = u + 1 := ⟨ctx.usage - 1, by omega⟩
    rw [hu']
    simp only [Nat.add_sub_cancel]
    rw [List.range_succ_eq_map, List.map_cons, List.map_map]
    congr 1
    · rw [Nat.add_zero, Nat.mod_eq_of_lt htail]
    · apply List.map_congr_left
      intro i _
      simp only [Function.comp_apply, htail']
      congr 1
      rw [Nat.mod_add_mod]
      congr 1
      omega

end ThreadRead

namespace ThreadRead

/-- Under the pool invariant, a non-empty in-flight set leaves the
free-list strictly below capacity. -/
theorem rxInv_usage_lt (s : RxState) (hinv : rxInv s) (hne : s.inFlight ≠ []) :
    s.ring_buf_ctx.usage < NUM_BUFS := by
  obtain ⟨hwf, hperm⟩ := hinv
  have hlen := hperm.length_eq
  simp only [List.length_append, freeList, freeListC, List.length_map,
    List.length_range] at hlen
  have hpos : 0 < s.inFlight.length := List.length_pos.mpr hne
  omega

/-- Invariant preservation and exact effect of one RX completion: the
invariant is kept, the completed buffer moves to the end of the free-list,
leaves the in-flight set, and is marked unused. -/
theorem handle_event_spec (cfg : RxConfig) (s : RxState) (b : Nat) (res : Int)
    (hinv : rxInv s) (hb : b ∈ s.inFlight) :
    rxInv (handle_event cfg s b res).1 ∧
    freeList (handle_event cfg s b res).1 = freeList s ++ [b] ∧
    (handle_event cfg s b res).1.inFlight = s.inFlight.erase b ∧
    (handle_event cfg s b res).1.in_use b = false := by
  have husage : s.ring_buf_ctx.usage < NUM_BUFS :=
    rxInv_usage_lt s hinv (List.ne_nil_of_mem hb)
  obtain ⟨hwf, hperm⟩ := hinv
  have hput := put_spec s.ring_buf_ctx s.ring_buf_data b hwf husage
  have hfl : freeList (handle_event cfg s b res).1 = freeList s ++ [b] := by
    simp only [handle_event, freeList]
    exact hput.2.2.2
  refine ⟨⟨hput.2.2.1, ?_⟩, hfl, rfl, by simp [handle_event]⟩
  rw [hfl]
  have herase : (handle_event cfg s b res).1.inFlight = s.inFlight.erase b := rfl
  rw [herase]
  have hstep : (freeList s ++ [b]) ++ s.inFlight.erase b
      = freeList s ++ (b :: s.inFlight.erase b) := by
    rw [List.append_assoc]; rfl
  rw [hstep]
  exact ((List.perm_cons_erase hb).symm.append_left (freeList s)).trans hperm

/-- Invariant preservation over a whole valid RX completion batch. -/
theorem handle_eventfd_aio_inv (cfg : RxConfig) (evs : List (Nat × Int)) :
    ∀ s : RxState, rxInv s → validEvents s.inFlight evs = true →
      rxInv (handle_eventfd_aio cfg s evs) := by
  induction evs with
  | nil => intro s hinv _; exact hinv
  | cons e rest ih =>
    intro s hinv hv
    simp only [validEvents, Bool.and_eq_true, decide_eq_true_eq] at hv
    obtain ⟨hmem, hvrest⟩ := hv
    have hspec := handle_event_spec cfg s e.1 e.2 hinv hmem
    simp only [handle_eventfd_aio]
    exact ih _ hspec.1 (by rw [hspec.2.2.1]; exact hvrest)

/-- Invariant preservation for the hardware-ready handler whenever it
returns success. -/
theorem handle_iio_buffer_inv (cfg : RxConfig) (s : RxState) (rb : Int)
    (ok : Bool) (hinv : rxInv s)
    (h0 : (handle_iio_buffer cfg s rb ok).2 = 0) :
    rxInv (handle_iio_buffer cfg s rb ok).1 := by
  obtain ⟨hwf, hperm⟩ := hinv
  by_cases hrb : rb ≠ (cfg.usb_buffer_size : Int)
  · exfalso
    simp [handle_iio_buffer, hrb] at h0
  · by_cases husage : 0 < s.ring_buf_ctx.usage
    · have hget := get_spec s.ring_buf_ctx s.ring_buf_data hwf husage
      have hne : (RING_BUFFER_Get s.ring_buf_ctx).2 ≠ RING_BUFFER_NO_INDEX := by
        rw [hget.1]
        have h1 := hget.2.1
        simp only [NUM_BUFS] at h1
        simp only [RING_BUFFER_NO_INDEX]
        omega
      cases ok with
      | false =>
        exfalso
        simp only [handle_iio_buffer, if_neg hrb, if_pos hne, if_neg Bool.false_ne_true] at h0
        exact absurd h0 (by norm_num)
      | true =>
        simp only [handle_iio_buffer, if_neg hrb, if_pos hne, if_pos rfl]
        refine ⟨hget.2.2.1, ?_⟩
        simp only [freeList]
        have hb : s.ring_buf_data (RING_BUFFER_Get s.ring_buf_ctx).2
            = s.ring_buf_data s.ring_buf_ctx.tail := by rw [hget.1]
        rw [hb]
        have hperm' : (s.ring_buf_data s.ring_buf_ctx.tail ::
            freeListC (RING_BUFFER_Get s.ring_buf_ctx).1 s.ring_buf_data)
              ++ s.inFlight |>.Perm (List.range NUM_BUFS) := by
          rw [← hget.2.2.2]
          exact hperm
        have hmove : freeListC (RING_BUFFER_Get s.ring_buf_ctx).1 s.ring_buf_data
            ++ (s.inFlight ++ [s.ring_buf_data s.ring_buf_ctx.tail]) |>.Perm
              ((s.ring_buf_data s.ring_buf_ctx.tail ::
                freeListC (RING_BUFFER_Get s.ring_buf_ctx).1 s.ring_buf_data)
                  ++ s.inFlight) := by
          rw [← List.append_assoc]
          exact List.perm_append_singleton _ _
        exact hmove.trans hperm'
    · have hidx : (RING_BUFFER_Get s.ring_buf_ctx).2 = RING_BUFFER_NO_INDEX := by
        simp only [RING_BUFFER_Get, Nat.not_lt_eq] at husage ⊢
        rw [if_neg (by omega)]
      have hctx : (RING_BUFFER_Get s.ring_buf_ctx).1 = s.ring_buf_ctx := by
        simp only [RING_BUFFER_Get]
        rw [if_neg (by omega)]
      simp only [handle_iio_buffer, if_neg hrb, hidx, if_neg (by simp : ¬(RING_BUFFER_NO_INDEX ≠ RING_BUFFER_NO_INDEX))]
      exact ⟨by rw [hctx]; exact hwf, by simp only [freeList, hctx]; exact hperm⟩

/-- Numeric consequences of the pool invariant: the free-list length and
in-flight count sum to 16, and each buffer index below 16 is in exactly
one of the two. -/
theorem rxInv_consequences (s : RxState) (hinv : rxInv s) :
    (freeList s).length + s.inFlight.length = NUM_BUFS ∧
    ∀ b, b < NUM_BUFS → (b ∈ freeList s ↔ b ∉ s.inFlight) := by
  obtain ⟨hwf, hperm⟩ := hinv
  constructor
  · have hlen := hperm.length_eq
    simpa [List.length_append] using hlen
  · intro b hb
    have hmem : b ∈ freeList s ++ s.inFlight :=
      hperm.mem_iff.mpr (List.mem_range.mpr hb)
    have hnd : (freeList s ++ s.inFlight).Nodup :=
      hperm.nodup_iff.mpr (List.nodup_range _)
    rw [List.nodup_append] at hnd
    rw [List.mem_append] at hmem
    constructor
    · intro hf hi
      exact hnd.2.2 hf hi
    · intro hni
      rcases hmem with h | h
      · exact h
      · exact absurd h hni

end ThreadRead

namespace ThreadRead

/-- **C1.** During the RX engine's RUNNING state the buffer-pool invariant
holds at every dispatch boundary: it holds on entry to the loop, and every
event-handler invocation that returns success preserves it; consequently
each of the 16 transfer-buffer indices is in exactly one of
{free-list, in-flight} and the free-list length plus the in-flight count
equals the pool capacity 16. -/
theorem C1_rx_pool_invariant :
    rxInv rxInitState ∧
    ∀ (cfg : RxConfig) (s : RxState) (ev : RxEvent),
      rxInv s → eventValid s ev = true → (dispatch cfg s ev).2 = 0 →
      rxInv (dispatch cfg s ev).1 ∧
      (freeList (dispatch cfg s ev).1).length
          + (dispatch cfg s ev).1.inFlight.length = NUM_BUFS ∧
      ∀ b, b < NUM_BUFS →
        (b ∈ freeList (dispatch cfg s ev).1 ↔ b ∉ (dispatch cfg s ev).1.inFlight) := by
  refine ⟨by decide, ?_⟩
  intro cfg s ev hinv hvalid h0
  have hinv' : rxInv (dispatch cfg s ev).1 := by
    cases ev with
    | quitReady => exact hinv
    | iioReady rb ok => exact handle_iio_buffer_inv cfg s rb ok hinv h0
    | aioReady evs =>
      exact handle_eventfd_aio_inv cfg evs s hinv (by simpa [eventValid] using hvalid)
  exact ⟨hinv', rxInv_consequences _ hinv'⟩

/-- Witness for C1: dispatching a successful hardware refill with a
successful submit on the freshly populated RX pool keeps the invariant;
buffer 3 is then in exactly one of the two states. -/
theorem C1_rx_pool_invariant_witness :
    rxInv (dispatch cfgW rxInitState (RxEvent.iioReady 4096 true)).1 ∧
    (freeList (dispatch cfgW rxInitState (RxEvent.iioReady 4096 true)).1).length
        + (dispatch cfgW rxInitState (RxEvent.iioReady 4096 true)).1.inFlight.length
        = NUM_BUFS ∧
    (3 ∈ freeList (dispatch cfgW rxInitState (RxEvent.iioReady 4096 true)).1 ↔
      3 ∉ (dispatch cfgW rxInitState (RxEvent.iioReady 4096 true)).1.inFlight) := by
  have h := C1_rx_pool_invariant.2 cfgW rxInitState (RxEvent.iioReady 4096 true)
    (by decide) (by decide) (by decide)
  exact ⟨h.1, h.2.1, h.2.2 3 (by decide)⟩

/-- **C4.** When an RX hardware refill completes successfully (returning
exactly the expected byte count) while the free-list is empty, the overflow
counter increments by exactly one (in a stats build, below the `uint32`
wrap) and no USB transfer is submitted: the in-flight set and the ring are
unchanged and the handler returns success. -/
theorem C4_rx_overflow_on_empty (cfg : RxConfig) (s : RxState) (ok : Bool)
    (hstats : cfg.generate_stats = true)
    (hempty : s.ring_buf_ctx.usage = 0)
    (hnowrap : s.overflows + 1 < 2 ^ 32) :
    (handle_iio_buffer cfg s (cfg.usb_buffer_size : Int) ok).1.overflows
        = s.overflows + 1 ∧
    (handle_iio_buffer cfg s (cfg.usb_buffer_size : Int) ok).1.inFlight
        = s.inFlight ∧
    (handle_iio_buffer cfg s (cfg.usb_buffer_size : Int) ok).1.ring_buf_ctx
        = s.ring_buf_ctx ∧
    (handle_iio_buffer cfg s (cfg.usb_buffer_size : Int) ok).2 = 0 := by
  have hget : RING_BUFFER_Get s.ring_buf_ctx = (s.ring_buf_ctx, RING_BUFFER_NO_INDEX) := by
    simp [RING_BUFFER_Get, hempty]
  have hofl : (s.overflows + 1) % 2 ^ 32 = s.overflows + 1 := Nat.mod_eq_of_lt hnowrap
  simp [handle_iio_buffer, hget, hstats, hofl]
  omega

/-- Witness for C4: refilling with an all-in-flight pool counts one
overflow and leaves the in-flight set alone. -/
theorem C4_rx_overflow_on_empty_witness :
    (handle_iio_buffer cfgW rxAllInFlightState (cfgW.usb_buffer_size : Int) true).1.overflows
        = rxAllInFlightState.overflows + 1 ∧
    (handle_iio_buffer cfgW rxAllInFlightState (cfgW.usb_buffer_size : Int) true).1.inFlight
        = rxAllInFlightState.inFlight ∧
    (handle_iio_buffer cfgW rxAllInFlightState (cfgW.usb_buffer_size : Int) true).1.ring_buf_ctx
        = rxAllInFlightState.ring_buf_ctx ∧
    (handle_iio_buffer cfgW rxAllInFlightState (cfgW.usb_buffer_size : Int) true).2 = 0 :=
  C4_rx_overflow_on_empty cfgW rxAllInFlightState true (by decide) (by decide) (by decide)

/-- **C5.** For every RX async-transfer completion: an error is logged iff
the transferred byte count differs from the expected buffer size and the
status is not `-ESHUTDOWN`; in all cases the buffer is marked not-in-use
and its index is returned to the free-list.  (`res` ranges over the
C `long`; the expected size is below `2 ^ 63` as a `size_t` from a sane
configuration.) -/
theorem C5_rx_completion (cfg : RxConfig) (s : RxState) (b : Nat) (res : Int)
    (hinv : rxInv s) (hb : b ∈ s.inFlight)
    (hsize : cfg.usb_buffer_size < 2 ^ 63)
    (hlo : -(2 ^ 63) ≤ res) (hhi : res < 2 ^ 63) :
    ((handle_event cfg s b res).2 = true ↔
      (res ≠ (cfg.usb_buffer_size : Int) ∧ res ≠ -ESHUTDOWN)) ∧
    (handle_event cfg s b res).1.in_use b = false ∧
    freeList (handle_event cfg s b res).1 = freeList s ++ [b] := by
  have hspec := handle_event_spec cfg s b res hinv hb
  refine ⟨?_, hspec.2.2.2, hspec.2.1⟩
  have hcast : castSizeT res = cfg.usb_buffer_size ↔ res = (cfg.usb_buffer_size : Int) := by
    simp only [castSizeT]
    omega
  show (if cfg.usb_buffer_size ≠ castSizeT res then
      if res ≠ -ESHUTDOWN then true else false
    else false) = true ↔ _
  split_ifs with hne hes
  · simp only [true_iff]
    exact ⟨fun heq => hne (hcast.mpr heq).symm, hes⟩
  · push_neg at hes
    simp [hes]
  · push_neg at hne
    have hr : res = (cfg.usb_buffer_size : Int) := hcast.mp hne.symm
    simp [hr]

/-- Witness for C5: on a pool with every buffer in flight, a 2048-byte
completion against a 4096-byte expected size logs and still recycles
buffer 5. -/
theorem C5_rx_completion_witness :
    ((handle_event cfgW rxAllInFlightState 5 2048).2 = true ↔
      ((2048 : Int) ≠ (cfgW.usb_buffer_size : Int) ∧ (2048 : Int) ≠ -ESHUTDOWN)) ∧
    (handle_event cfgW rxAllInFlightState 5 2048).1.in_use 5 = false ∧
    freeList (handle_event cfgW rxAllInFlightState 5 2048).1
      = freeList rxAllInFlightState ++ [5] :=
  C5_rx_completion cfgW rxAllInFlightState 5 2048 (by decide) (by decide)
    (by decide) (by decide) (by decide)

/-- **C10.** The unchecked uses of `RING_BUFFER_Put`'s return value as an
index into the 16-entry `ring_buf_data` array are safe: each of the 16
puts of the pool-population loop returns index `n` (never the `NONE`
sentinel), and under the pool invariant the put that recycles a completed
in-flight buffer returns an in-bounds index (never the sentinel). -/
theorem C10_rx_put_in_bounds :
    (∀ n : Fin NUM_BUFS,
      (RING_BUFFER_Put (rxPopulate n.val).1).2 = n.val ∧
      (RING_BUFFER_Put (rxPopulate n.val).1).2 < NUM_BUFS ∧
      (RING_BUFFER_Put (rxPopulate n.val).1).2 ≠ RING_BUFFER_NO_INDEX) ∧
    (∀ (s : RxState) (b : Nat), rxInv s → b ∈ s.inFlight →
      (RING_BUFFER_Put s.ring_buf_ctx).2 < NUM_BUFS ∧
      (RING_BUFFER_Put s.ring_buf_ctx).2 ≠ RING_BUFFER_NO_INDEX) := by
  constructor
  · decide
  · intro s b hinv hb
    have husage : s.ring_buf_ctx.usage < NUM_BUFS :=
      rxInv_usage_lt s hinv (List.ne_nil_of_mem hb)
    have hput := put_spec s.ring_buf_ctx s.ring_buf_data b hinv.1 husage
    refine ⟨hput.2.1, ?_⟩
    have h1 := hput.2.1
    simp only [NUM_BUFS] at h1
    simp only [RING_BUFFER_NO_INDEX]
    omega

/-- Witness for C10: the fourth population put stores at index 3, and the
recycling put on an all-in-flight pool stays in bounds. -/
theorem C10_rx_put_in_bounds_witness :
    ((RING_BUFFER_Put (rxPopulate 3).1).2 = 3 ∧
      (RING_BUFFER_Put (rxPopulate 3).1).2 < NUM_BUFS ∧
      (RING_BUFFER_Put (rxPopulate 3).1).2 ≠ RING_BUFFER_NO_INDEX) ∧
    ((RING_BUFFER_Put rxAllInFlightState.ring_buf_ctx).2 < NUM_BUFS ∧
      (RING_BUFFER_Put rxAllInFlightState.ring_buf_ctx).2 ≠ RING_BUFFER_NO_INDEX) :=
  ⟨C10_rx_put_in_bounds.1 ⟨3, by decide⟩,
    C10_rx_put_in_bounds.2 rxAllInFlightState 5 (by decide) (by decide)⟩

end ThreadRead

namespace ThreadWrite

/-- A TX completion whose handler returns success re-submitted its buffer:
the in-flight set is unchanged. -/
theorem tx_handle_event_inflight (cfg : TxConfig) (s : TxState) (e : TxCompletion)
    (h0 : (handle_event cfg s e).2.2 = 0) :
    (handle_event cfg s e).1.inFlight = s.inFlight := by
  cases hok : e.submit_ok with
  | false =>
    exfalso
    simp only [handle_event, hok, Bool.false_eq_true, if_false] at h0
    exact absurd h0 (by norm_num)
  | true =>
    simp only [handle_event, hok, if_true]
    split
    · split <;> rfl
    · split <;> rfl

/-- Over a whole completion batch that returns success, the TX in-flight
set is unchanged. -/
theorem tx_aio_inflight (cfg : TxConfig) (evs : List TxCompletion) :
    ∀ s : TxState, (handle_eventfd_aio cfg s evs).2 = 0 →
      (handle_eventfd_aio cfg s evs).1.inFlight = s.inFlight := by
  induction evs with
  | nil => intro s _; rfl
  | cons e rest ih =>
    intro s h0
    by_cases hr : (handle_event cfg s e).2.2 = 0
    · simp only [handle_eventfd_aio, if_pos hr] at h0 ⊢
      rw [ih _ h0]
      exact tx_handle_event_inflight cfg s e hr
    · exfalso
      simp only [handle_eventfd_aio, if_neg hr] at h0
      exact hr h0

/-- **C2.** During the TX engine's RUNNING state the in-flight count is
exactly the pool capacity 16 at every dispatch boundary: it is 16 on loop
entry (all 16 buffers submitted up front), every dispatch that returns
success preserves the invariant, and each successfully handled completion
re-submits its buffer immediately — regardless of the completion's result
— so no TX buffer is ever idle. -/
theorem C2_tx_all_in_flight :
    txInv txInitState ∧
    (∀ (cfg : TxConfig) (s : TxState) (ev : TxEvent),
      txInv s → (dispatch cfg s ev).2 = 0 →
      txInv (dispatch cfg s ev).1 ∧
      (dispatch cfg s ev).1.inFlight.length = NUM_BUFS) ∧
    (∀ (cfg : TxConfig) (s : TxState) (e : TxCompletion),
      (handle_event cfg s e).2.2 = 0 →
      (handle_event cfg s e).1.inFlight = s.inFlight) := by
  refine ⟨by decide, ?_, tx_handle_event_inflight⟩
  intro cfg s ev hinv h0
  have hinv' : txInv (dispatch cfg s ev).1 := by
    cases ev with
    | quitReady => exact hinv
    | aioReady evs =>
      have h := tx_aio_inflight cfg evs s h0
      simp only [dispatch] at h ⊢
      rw [txInv, h]
      exact hinv
  refine ⟨hinv', ?_⟩
  have := hinv'.length_eq
  simpa using this

/-- Witness for C2: a successful 4096-byte completion on buffer 3 with a
successful re-submit keeps all 16 TX buffers in flight. -/
theorem C2_tx_all_in_flight_witness :
    txInv (dispatch ⟨4096, false⟩ txInitState
        (TxEvent.aioReady [⟨3, 4096, 4096, true⟩])).1 ∧
    (dispatch ⟨4096, false⟩ txInitState
        (TxEvent.aioReady [⟨3, 4096, 4096, true⟩])).1.inFlight.length = NUM_BUFS :=
  C2_tx_all_in_flight.2.1 ⟨4096, false⟩ txInitState
    (TxEvent.aioReady [⟨3, 4096, 4096, true⟩]) (by decide) (by decide)

end ThreadWrite

/-- **C3.** For every run of an engine's shutdown sequence (RX or TX, with
or without the stats timer), the teardown effects occur in strict order:
the async I/O context is destroyed first, then every one of the 16 pool
buffers is freed, then the hardware stream and then its context are
released. -/
theorem C3_teardown_order :
    ∀ (stats : Bool) (i : Fin 16),
      (TeardownAction.freeBuffer i.val ∈ rxTeardownTrace stats ∧
        (rxTeardownTrace stats).indexOf TeardownAction.ioDestroy <
          (rxTeardownTrace stats).indexOf (TeardownAction.freeBuffer i.val) ∧
        (rxTeardownTrace stats).indexOf (TeardownAction.freeBuffer i.val) <
          (rxTeardownTrace stats).indexOf TeardownAction.iioBufferDestroy ∧
        (rxTeardownTrace stats).indexOf TeardownAction.iioBufferDestroy <
          (rxTeardownTrace stats).indexOf TeardownAction.iioContextDestroy) ∧
      (TeardownAction.freeBuffer i.val ∈ txTeardownTrace stats ∧
        (txTeardownTrace stats).indexOf TeardownAction.ioDestroy <
          (txTeardownTrace stats).indexOf (TeardownAction.freeBuffer i.val) ∧
        (txTeardownTrace stats).indexOf (TeardownAction.freeBuffer i.val) <
          (txTeardownTrace stats).indexOf TeardownAction.iioBufferDestroy ∧
        (txTeardownTrace stats).indexOf TeardownAction.iioBufferDestroy <
          (txTeardownTrace stats).indexOf TeardownAction.iioContextDestroy) := by
  decide

namespace MainC

/-- **C7.** `STOP` is idempotent: stopping a direction whose engine is not
running performs no action — no cancellation-signal write, no thread join,
no state change — and returns success. -/
theorem C7_stop_idempotent (env : SysEnv) (s : SessionState) (tx : Bool)
    (hnot : (if tx then s.write_started else s.read_started) = false) :
    stop_thread env s tx = (s, [], true) := by
  cases tx with
  | false =>
    simp at hnot
    simp [stop_thread, hnot]
  | true =>
    simp at hnot
    simp [stop_thread, hnot]

/-- Witness for C7: stopping RX on a session with no engines running
changes nothing and succeeds. -/
theorem C7_stop_idempotent_witness :
    stop_thread allOk freshSession false = (freshSession, [], true) :=
  C7_stop_idempotent allOk freshSession false (by decide)

/-- **C9.** A `START` control transfer whose payload length is not exactly
8 bytes is rejected with no side effects beyond the log message: the
session state (running flags and stored engine parameters) is unchanged
and no engine is stopped or started. -/
theorem C9_malformed_start_rejected (env : SysEnv) (s : SessionState)
    (wValue : Nat) (read_count : Int) (req : EngineArgs)
    (hlen : read_count ≠ 8) :
    handle_setup_start env s wValue read_count req = (s, [Action.logBadStart]) := by
  simp [handle_setup_start, hlen]

/-- Witness for C9: a 7-byte `START` payload is rejected without touching
the session. -/
theorem C9_malformed_start_rejected_witness :
    handle_setup_start allOk freshSession 0 7 ⟨3, 1024⟩
      = (freshSession, [Action.logBadStart]) :=
  C9_malformed_start_rejected allOk freshSession 0 7 ⟨3, 1024⟩ (by decide)

/-- **C6.** A `START` for a direction with a running engine performs the
full STOP (signal cancellation, join, drain, clear flag) before creating
the new engine thread, and after two consecutive `START(RX, ...)` commands
without an intervening `STOP` exactly one RX engine is running, carrying
the second start's parameters. -/
theorem C6_start_replaces_running_engine :
    (∀ (s : SessionState) (p : EngineArgs), s.read_started = true →
      (handle_setup_start allOk s 0 8 p).2 =
        [Action.signalQuit false, Action.joinThread false, Action.drainQuit false,
          Action.maskSignals, Action.createThread false p, Action.unmaskSignals] ∧
      (handle_setup_start allOk s 0 8 p).1.read_started = true ∧
      (handle_setup_start allOk s 0 8 p).1.read_engine = some p ∧
      (handle_setup_start allOk s 0 8 p).1.read_args = p) ∧
    (∀ (s : SessionState) (p1 p2 : EngineArgs), s.read_started = false →
      (handle_setup_start allOk (handle_setup_start allOk s 0 8 p1).1 0 8 p2).1.read_started
          = true ∧
      (handle_setup_start allOk (handle_setup_start allOk s 0 8 p1).1 0 8 p2).1.read_engine
          = some p2 ∧
      (handle_setup_start allOk (handle_setup_start allOk s 0 8 p1).1 0 8 p2).1.read_args
          = p2 ∧
      (handle_setup_start allOk (handle_setup_start allOk s 0 8 p1).1 0 8 p2).2 =
        [Action.signalQuit false, Action.joinThread false, Action.drainQuit false,
          Action.maskSignals, Action.createThread false p2, Action.unmaskSignals]) := by
  constructor
  · intro s p hs
    simp [handle_setup_start, stop_thread, start_thread, allOk, hs]
  · intro s p1 p2 hs
    simp [handle_setup_start, stop_thread, start_thread, allOk, hs]

/-- Witness for C6: starting RX on an already-running session stops it
first; two RX starts from a fresh session leave one engine with the
second parameters. -/
theorem C6_start_replaces_running_engine_witness :
    ((handle_setup_start allOk
        { freshSession with read_started := true, read_engine := some ⟨1, 256⟩ }
        0 8 ⟨3, 1024⟩).2 =
      [Action.signalQuit false, Action.joinThread false, Action.drainQuit false,
        Action.maskSignals, Action.createThread false ⟨3, 1024⟩, Action.unmaskSignals] ∧
      (handle_setup_start allOk
        { freshSession with read_started := true, read_engine := some ⟨1, 256⟩ }
        0 8 ⟨3, 1024⟩).1.read_started = true ∧
      (handle_setup_start allOk
        { freshSession with read_started := true, read_engine := some ⟨1, 256⟩ }
        0 8 ⟨3, 1024⟩).1.read_engine = some ⟨3, 1024⟩ ∧
      (handle_setup_start allOk
        { freshSession with read_started := true, read_engine := some ⟨1, 256⟩ }
        0 8 ⟨3, 1024⟩).1.read_args = ⟨3, 1024⟩) ∧
    ((handle_setup_start allOk
        (handle_setup_start allOk freshSession 0 8 ⟨1, 256⟩).1 0 8 ⟨3, 1024⟩).1.read_started
        = true ∧
      (handle_setup_start allOk
        (handle_setup_start allOk freshSession 0 8 ⟨1, 256⟩).1 0 8 ⟨3, 1024⟩).1.read_engine
        = some ⟨3, 1024⟩ ∧
      (handle_setup_start allOk
        (handle_setup_start allOk freshSession 0 8 ⟨1, 256⟩).1 0 8 ⟨3, 1024⟩).1.read_args
        = ⟨3, 1024⟩ ∧
      (handle_setup_start allOk
        (handle_setup_start allOk freshSession 0 8 ⟨1, 256⟩).1 0 8 ⟨3, 1024⟩).2 =
        [Action.signalQuit false, Action.joinThread false, Action.drainQuit false,
          Action.maskSignals, Action.createThread false ⟨3, 1024⟩, Action.unmaskSignals]) :=
  ⟨C6_start_replaces_running_engine.1
      { freshSession with read_started := true, read_engine := some ⟨1, 256⟩ }
      ⟨3, 1024⟩ (by decide),
    C6_start_replaces_running_engine.2 freshSession ⟨1, 256⟩ ⟨3, 1024⟩ (by decide)⟩

end MainC

/-- Witness for C3: in the non-stats RX and TX teardown traces, freeing
buffer 0 happens after the context destroy and before the stream and
context releases. -/
theorem C3_teardown_order_witness :
    (TeardownAction.freeBuffer 0 ∈ rxTeardownTrace false ∧
      (rxTeardownTrace false).indexOf TeardownAction.ioDestroy <
        (rxTeardownTrace false).indexOf (TeardownAction.freeBuffer 0) ∧
      (rxTeardownTrace false).indexOf (TeardownAction.freeBuffer 0) <
        (rxTeardownTrace false).indexOf TeardownAction.iioBufferDestroy ∧
      (rxTeardownTrace false).indexOf TeardownAction.iioBufferDestroy <
        (rxTeardownTrace false).indexOf TeardownAction.iioContextDestroy) ∧
    (TeardownAction.freeBuffer 0 ∈ txTeardownTrace false ∧
      (txTeardownTrace false).indexOf TeardownAction.ioDestroy <
        (txTeardownTrace false).indexOf (TeardownAction.freeBuffer 0) ∧
      (txTeardownTrace false).indexOf (TeardownAction.freeBuffer 0) <
        (txTeardownTrace false).indexOf TeardownAction.iioBufferDestroy ∧
      (txTeardownTrace false).indexOf TeardownAction.iioBufferDestroy <
        (txTeardownTrace false).indexOf TeardownAction.iioContextDestroy) :=
  C3_teardown_order false ⟨0, by decide⟩
